import Mathlib

/-!
Shallow embedding of the deep-research session store and recursive
orchestrator (`deep_research.py`), with theorems settling the frozen
claims about its specification.

Conventions of the embedding:
* SQLite rows become a `Row` structure; the `sessions` table becomes a
  `List Row` threaded through the operations that mutate it.
* Python truthiness tests on nullable columns (`if result:`,
  `if s['pid']:`, ...) become explicit `truthy*` helpers on `Option`.
* `os.kill(pid, 0)` wrapped in `except OSError` becomes an abstract
  probe `Nat → ProbeResult`; both `ProcessLookupError` and
  `PermissionError` are subclasses of `OSError`, which the embedding
  records in `killRaisesOSError`.
* Timestamps are abstract `Nat`s supplied by the caller.
-/

namespace DeepResearch

/-- Python truthiness of a nullable integer column (`None` and `0` are falsy). -/
def truthyNat : Option Nat → Bool
  | none => false
  | some n => n != 0

/-- Python truthiness of a nullable text column (`None` and `""` are falsy). -/
def truthyStr : Option String → Bool
  | none => false
  | some s => s != ""

/-- `t` occurs verbatim (as a contiguous substring) inside `s`. -/
def containsStr (s t : String) : Prop :=
  ∃ a b : List Char, s.data = a ++ t.data ++ b

/-- One row of the `sessions` table (`CREATE TABLE sessions ...` plus the
`pid`, `parent_id`, `depth` migration columns). -/
structure Row where
  id : Nat
  interaction_id : String
  prompt : String
  status : String
  created_at : Nat
  updated_at : Nat
  result : Option String
  files : List String
  pid : Option Nat
  parent_id : Option Nat
  depth : Nat
deriving DecidableEq

/-- `SessionManager.update_session`: sets `status` and `updated_at` on every
row whose `interaction_id` matches; the `result` column is included in the
`UPDATE` only when the Python argument is truthy (`if result:`). -/
def update_session (db : List Row) (interaction_id : String) (status : String)
    (result : Option String) (now : Nat) : List Row :=
  db.map fun r =>
    if r.interaction_id = interaction_id then
      { r with
        status := status
        updated_at := now
        result := if truthyStr result then result else r.result }
    else r

/-! ## Liveness reconciliation (`SessionManager.list_sessions`) -/

/-- Outcome of the zero-signal probe `os.kill(pid, 0)`. -/
inductive ProbeResult where
  | ok
  | noSuchProcess
  | permissionDenied
deriving DecidableEq

/-- `os.kill(pid, 0)` raises `OSError` both when the process does not exist
(`ProcessLookupError`) and when the signal is disallowed (`PermissionError`);
the bare `except OSError:` in `list_sessions` catches both. -/
def killRaisesOSError : ProbeResult → Bool
  | .ok => false
  | .noSuchProcess => true
  | .permissionDenied => true

/-- `['completed', 'crashed', 'failed', 'cancelled']` from the parent check. -/
def terminalStatuses : List String := ["completed", "crashed", "failed", "cancelled"]

/-- Insert a row into a list kept in descending `updated_at` order. -/
def insertByUpdatedDesc (r : Row) : List Row → List Row
  | [] => [r]
  | x :: xs =>
    if r.updated_at ≤ x.updated_at then x :: insertByUpdatedDesc r xs
    else r :: x :: xs

/-- `SELECT * FROM sessions ORDER BY updated_at DESC`. -/
def sortByUpdatedDesc (db : List Row) : List Row :=
  db.foldr insertByUpdatedDesc []

/-- The parent half of the dead check: `parent['status'] in [...]`, else probe
`parent['pid']` when truthy. -/
def parentIsDead (probe : Nat → ProbeResult) (parent : Row) : Bool :=
  if parent.status ∈ terminalStatuses then true
  else if truthyNat parent.pid then killRaisesOSError (probe (parent.pid.getD 0))
  else false

/-- The per-row dead check of `list_sessions`, for a snapshot row `s` already
known to be `running`, against the current table `db`.  Returns the computed
`is_dead` flag together with the number of `SELECT` queries it issued (the
parent lookup `SELECT pid, status FROM sessions WHERE id = ?`). -/
def rowIsDead (probe : Nat → ProbeResult) (db : List Row) (s : Row) : Bool × Nat :=
  if truthyNat s.pid then
    (killRaisesOSError (probe (s.pid.getD 0)), 0)
  else if truthyNat s.parent_id then
    match db.find? (fun r => r.id = s.parent_id.getD 0) with
    | some parent => (parentIsDead probe parent, 1)
    | none => (false, 1)
  else (false, 0)

/-- Result of `list_sessions`: the returned dictionaries, the table after the
in-loop `UPDATE ... SET status = 'crashed'` writes, and the number of `SELECT`
queries issued. -/
structure ListOutcome where
  rows : List Row
  db : List Row
  selects : Nat
deriving DecidableEq

/-- The reconciliation loop of `list_sessions`: iterates over the snapshot
rows fetched by the initial query, re-reading the (possibly already updated)
table for parent lookups, and committing each `crashed` write before the next
iteration. -/
def reconcile (probe : Nat → ProbeResult) : List Row → List Row → ListOutcome
  | [], db => ⟨[], db, 0⟩
  | s :: rest, db =>
    if s.status = "running" then
      let dq := rowIsDead probe db s
      if dq.1 then
        let db2 := db.map fun r => if r.id = s.id then { r with status := "crashed" } else r
        let out := reconcile probe rest db2
        ⟨{ s with status := "crashed" } :: out.rows, out.db, dq.2 + out.selects⟩
      else
        let out := reconcile probe rest db
        ⟨s :: out.rows, out.db, dq.2 + out.selects⟩
    else
      let out := reconcile probe rest db
      ⟨s :: out.rows, out.db, out.selects⟩

/-- `SessionManager.list_sessions(limit)`: one `SELECT` for the candidate rows
(ordered by `updated_at DESC`, limited), then the liveness reconciliation
loop. -/
def list_sessions (probe : Nat → ProbeResult) (db : List Row) (limit : Nat) : ListOutcome :=
  let out := reconcile probe ((sortByUpdatedDesc db).take limit) db
  ⟨out.rows, out.db, 1 + out.selects⟩

/-! ## Stream processing and resumption
(`DeepResearchAgent._process_stream` / `start_research_stream`) -/

/-- One typed event from the interaction stream.  `interactionId` is
`event.interaction.id`, read only on `interaction.start` events. -/
structure SEvent where
  eventType : String
  interactionId : String
  eventId : Option String
deriving DecidableEq

/-- The mutable single-element-list references threaded through
`_process_stream`, together with counters for the two session-store writes the
handler can perform on an `interaction.start` event. -/
structure StreamSt where
  interactionId : Option String
  lastEventId : Option String
  isComplete : Bool
  adoptCalls : Nat
  createCalls : Nat
deriving DecidableEq

def initialStreamSt : StreamSt := ⟨none, none, false, 0, 0⟩

/-- The body of the `for event in event_stream:` loop in `_process_stream`.
On `interaction.start` it records the id and performs the adoption update
(`update_session_interaction_id`) when `adopt_session_id` is truthy, else
creates a row when `request_prompt` is truthy. -/
def procEvent (adopt : Option Nat) (requestPrompt : Option String) (st : StreamSt)
    (e : SEvent) : StreamSt :=
  let st1 :=
    if e.eventType = "interaction.start" then
      { st with
        interactionId := some e.interactionId
        adoptCalls := st.adoptCalls + (if truthyNat adopt then 1 else 0)
        createCalls :=
          st.createCalls + (if ¬truthyNat adopt ∧ truthyStr requestPrompt then 1 else 0) }
    else st
  let st2 := if truthyStr e.eventId then { st1 with lastEventId := e.eventId } else st1
  if e.eventType = "interaction.complete" ∨ e.eventType = "error" then
    { st2 with isComplete := true }
  else st2

/-- `_process_stream` over one event segment. -/
def process_stream (adopt : Option Nat) (requestPrompt : Option String) (st : StreamSt)
    (events : List SEvent) : StreamSt :=
  events.foldl (procEvent adopt requestPrompt) st

/-- Number of `interaction.start` events in a segment. -/
def countStarts (events : List SEvent) : Nat :=
  events.countP (fun e => e.eventType = "interaction.start")

/-- `start_research_stream`: the initial stream is processed with the
request's prompt (so its `interaction.start` handler may create a row), then
the reconnection loop re-attaches and processes each resumed segment with
`request_prompt = None` while no terminal event has been seen and an
interaction id is known.  `resumes` is the (finite) list of observed resumed
segments. -/
def runResearchStream (adopt : Option Nat) (prompt : String) (initial : List SEvent)
    (resumes : List (List SEvent)) : StreamSt :=
  let st0 := process_stream adopt (some prompt) initialStreamSt initial
  resumes.foldl
    (fun st seg =>
      if ¬st.isComplete ∧ truthyStr st.interactionId then
        process_stream adopt none st seg
      else st)
    st0

/-! ## Recursive orchestrator (`DeepResearchAgent._execute_recursion_level`)

The remote provider, the gap-analysis model call, the synthesis model call
and the per-child timeout outcome are external oracles, collected in `Env`.
`execLevel` is the source recursion re-indexed by `remaining =
max_depth - current_depth`, which is the quantity the code compares
(`current_depth >= max_depth` iff `remaining = 0`); `execRecursionLevel`
restores the source signature. -/

/-- Outcome of the non-root polling loop for one node: the provider either
reaches `status == "completed"` with a final text, or an explicit
`status == "failed"` with an error. -/
inductive PollOutcome where
  | success (text : String)
  | failure (err : String)
deriving DecidableEq

/-- External oracles: `poll` is the remote research call for a node's prompt;
`gaps` is `analyze_gaps` (already-extracted question list, `[]` on any
analysis failure); `synth` is the synthesis model call, `none` meaning the
remote call raised; `inTime` tells whether the child task spawned for a
question is in the `done` set when the shared timeout elapses. -/
structure Env where
  poll : String → PollOutcome
  gaps : String → String → Nat → List String
  synth : String → String → List String → Option String
  inTime : String → Bool

/-- The observable execution of one node: its prompt and depth, the final
stored `status` and `result` of its row, the report value returned to the
parent (`none` when the node returned `None` or raised), whether
`analyze_gaps` was called, the `sub_reports` list collected from children,
and the spawned children. -/
inductive ExecTree where
  | mk (prompt : String) (depth : Nat) (status : String) (result : Option String)
      (report : Option String) (gapCalled : Bool) (collected : List String)
      (children : List ExecTree)

def ExecTree.prompt : ExecTree → String
  | .mk p _ _ _ _ _ _ _ => p

def ExecTree.depth : ExecTree → Nat
  | .mk _ d _ _ _ _ _ _ => d

def ExecTree.status : ExecTree → String
  | .mk _ _ s _ _ _ _ _ => s

def ExecTree.result : ExecTree → Option String
  | .mk _ _ _ r _ _ _ _ => r

def ExecTree.report : ExecTree → Option String
  | .mk _ _ _ _ rep _ _ _ => rep

def ExecTree.gapCalled : ExecTree → Bool
  | .mk _ _ _ _ _ g _ _ => g

def ExecTree.collected : ExecTree → List String
  | .mk _ _ _ _ _ _ c _ => c

def ExecTree.children : ExecTree → List ExecTree
  | .mk _ _ _ _ _ _ _ cs => cs

/-- The labels `[f"Sub-Report {i+1}:\n{r}" for i, r in enumerate(sub_reports)]`. -/
def labeledSubReports : Nat → List String → List String
  | _, [] => []
  | i, r :: rs => ("Sub-Report " ++ toString (i + 1) ++ ":\n" ++ r) :: labeledSubReports (i + 1) rs

/-- Python `sep.join(items)`. -/
def joinSep (sep : String) : List String → String
  | [] => ""
  | [x] => x
  | x :: y :: xs => x ++ sep ++ joinSep sep (y :: xs)

/-- `combined_subs = "\n\n---\n\n".join([f"Sub-Report {i+1}:\n{r}" ...])`. -/
def combinedSubs (subs : List String) : String :=
  joinSep "\n\n---\n\n" (labeledSubReports 0 subs)

/-- The `except` branch of `synthesize_findings`. -/
def synthFallback (mainReport : String) (subs : List String) : String :=
  mainReport ++ "\n\n[ERROR: Synthesis failed. Appending raw sub-reports below]\n\n"
    ++ combinedSubs subs

/-- `DeepResearchAgent.synthesize_findings`: the model's text on success, the
labeled concatenation fallback when the remote call raises. -/
def synthesize_findings (env : Env) (prompt mainReport : String) (subs : List String) : String :=
  match env.synth prompt mainReport subs with
  | some t => t
  | none => synthFallback mainReport subs

/-- `update_session`'s effect on this node's `result` column: written only
when the new value is truthy (`if result:`), else the old value is kept. -/
def storedResult (newResult : String) (old : Option String) : Option String :=
  if newResult != "" then some newResult else old

/-- `sub_reports` collection: for each spawned child, the future's result is
appended iff the future is in the `done` set when the shared
`concurrent.futures.wait(futures, timeout=...)` returns (`env.inTime`), the
child did not raise, and its returned report is truthy (`if res:`).  The
`done` set is iterated here in spawn order (the set's real iteration order is
unspecified; every claim proved below is order-insensitive). -/
def collectSubReports (env : Env) : List String → List ExecTree → List String
  | q :: qs, c :: cs =>
    (if env.inTime q then
      match c.report with
      | some s => if s != "" then [s] else []
      | none => []
    else []) ++ collectSubReports env qs cs
  | _, _ => []

/-- Phase 2/3 of `_execute_recursion_level`: the `(status, result)` stored on
the node's row after its own remote call.  The root (`current_depth == 1`)
executes via `start_research_stream`; every other node executes via
`start_research_poll`.  On success both paths perform the same
`update_session(iid, "completed" if leaf else "running", final_text)` write
(the `result` column staying `NULL` when the text is falsy).  On an explicit
provider failure they differ: the poll loop writes `status = "failed"` with
`result = "API Error: ..."`, while the stream path's terminal `error` event
only sets `is_complete` — the `if final_interaction.outputs:` retrieval then
writes nothing, so the root row keeps the `running` status and `NULL`
result it was created with. -/
def phase2 (env : Env) (prompt : String) (depth : Nat) (isLeaf : Bool) :
    String × Option String :=
  match env.poll prompt with
  | .success t =>
    (if isLeaf then "completed" else "running", if t = "" then none else some t)
  | .failure err =>
    if depth = 1 then ("running", none)
    else ("failed", some ("API Error: " ++ err))

/-- `_execute_recursion_level`, indexed by `remaining = max_depth -
current_depth`.  Phase 2/3 is `phase2` (stream for the root, poll for the
rest).  The fetch-guard `if status != 'completed' and not result: return
None` then decides whether the node continues; a node that passes the guard
with a `NULL` result hits `len(report)` on `None` and raises (report
`none`).  Phases 4-7 follow the source: termination at `remaining = 0`, gap
analysis, fan-out over every returned question, sub-report collection, and
synthesis with a final `update_session(..., "completed",
result=final_report)`. -/
def execLevel (env : Env) : Nat → String → Nat → Nat → ExecTree
  | 0, prompt, depth, _ =>
    let pr := phase2 env prompt depth true
    match pr.2 with
    | none => .mk prompt depth pr.1 none none false [] []
    | some report => .mk prompt depth pr.1 (some report) (some report) false [] []
  | r + 1, prompt, depth, breadth =>
    let pr := phase2 env prompt depth false
    match pr.2 with
    | none => .mk prompt depth pr.1 none none false [] []
    | some report =>
      let questions := env.gaps prompt report breadth
      if questions = [] then
        .mk prompt depth "completed" (storedResult report pr.2) (some report) true [] []
      else
        let children := questions.map (fun q => execLevel env r q (depth + 1) breadth)
        let subReports := collectSubReports env questions children
        if subReports = [] then
          .mk prompt depth pr.1 pr.2 (some report) true subReports children
        else
          let finalReport := synthesize_findings env prompt report subReports
          .mk prompt depth "completed" (storedResult finalReport pr.2) (some finalReport) true
            subReports children

/-- `_execute_recursion_level(prompt, current_depth, max_depth, breadth)`. -/
def execRecursionLevel (env : Env) (prompt : String) (currentDepth maxDepth breadth : Nat) :
    ExecTree :=
  execLevel env (maxDepth - currentDepth) prompt currentDepth breadth

/-! ## Concrete instances used by counterexamples and witnesses -/

/-- Run with one gap question whose remote operation fails. -/
def envChildFails : Env :=
  { poll := fun p => if p = "P" then .success "R" else .failure "boom"
    gaps := fun _ _ _ => ["Q1"]
    synth := fun _ _ _ => some "S"
    inTime := fun _ => true }

/-- Run whose children all run past the shared timeout. -/
def envAllTimeout : Env :=
  { poll := fun p => if p = "P" then .success "R" else .success "CR"
    gaps := fun p _ _ => if p = "P" then ["Q1", "Q2"] else []
    synth := fun _ _ _ => some "S"
    inTime := fun _ => false }

/-- Run whose remote operation reports an explicit provider failure for
every prompt. -/
def envPollFails : Env :=
  { poll := fun _ => .failure "down"
    gaps := fun _ _ _ => []
    synth := fun _ _ _ => none
    inTime := fun _ => true }

/-- Run where the gap analyzer returns two questions, one of them empty. -/
def envWideGaps : Env :=
  { poll := fun p => if p = "P" then .success "R" else .success "CR"
    gaps := fun p _ _ => if p = "P" then ["", "Q2"] else []
    synth := fun _ _ _ => some "S"
    inTime := fun _ => true }

/-- Run where both children report and the synthesis call errors. -/
def envSynthFails : Env :=
  { poll := fun p => if p = "P" then .success "R" else if p = "Q1" then .success "C1" else .success "C2"
    gaps := fun p _ _ => if p = "P" then ["Q1", "Q2"] else []
    synth := fun _ _ _ => none
    inTime := fun _ => true }

/-- Three-row chain: a dead-pid root, a pid-less running child of it, and a
pid-less running grandchild, with `updated_at` putting the grandchild first
in the listing order. -/
def chainRoot : Row := ⟨1, "iG", "G", "running", 0, 1, none, [], some 77, none, 1⟩

def chainMid : Row := ⟨2, "iM", "M", "running", 0, 2, none, [], none, some 1, 2⟩

def chainLeaf : Row := ⟨3, "iL", "L", "running", 0, 3, none, [], none, some 2, 3⟩

/-- Probe under which every pid is gone. -/
def probeAllDead : Nat → ProbeResult := fun _ => .noSuchProcess

/-- Probe under which every pid is alive. -/
def probeAllOk : Nat → ProbeResult := fun _ => .ok

/-- Probe raising `PermissionError` for every pid. -/
def probeAllPerm : Nat → ProbeResult := fun _ => .permissionDenied

/-- The shape of the repository's own regression test
`test_list_sessions_avoids_n_plus_one_queries`: one running parent with a
live pid and three running pid-less children referencing it. -/
def qcParent : Row := ⟨1, "parent", "Parent", "running", 0, 1, none, [], some 42, none, 1⟩

def qcChild1 : Row := ⟨2, "child1", "Child 1", "running", 0, 2, none, [], none, some 1, 2⟩

def qcChild2 : Row := ⟨3, "child2", "Child 2", "running", 0, 3, none, [], none, some 1, 2⟩

def qcChild3 : Row := ⟨4, "child3", "Child 3", "running", 0, 4, none, [], none, some 1, 2⟩

/-- A row with a set owner pid, used for the probe-failure claims. -/
def ownPidRow : Row := ⟨1, "own", "X", "running", 0, 1, none, [], some 5, none, 1⟩

/-- A stored row with an existing result, used for the update-frame claim. -/
def frameRow : Row := ⟨1, "iid", "X", "running", 0, 0, some "old", [], none, none, 1⟩

/-- `frameRow` after `update_session("iid", "done", "new")` at time 9. -/
def frameRowUpd : Row := ⟨1, "iid", "X", "done", 0, 9, some "new", [], none, none, 1⟩

/-- The streamed events: operation start, one fragment, a drop, then a
resumed segment ending in the terminal event. -/
def evStart : SEvent := ⟨"interaction.start", "op1", some "e1"⟩

def evDelta : SEvent := ⟨"content.delta", "", some "e2"⟩

def evDone : SEvent := ⟨"interaction.complete", "", some "e3"⟩

/-! ## Claim theorems -/

/-- Claim C10: for every status-update call on an existing row, the stored
result field is overwritten only when the supplied result argument is a
non-empty string; calling the update with result omitted (`None`) or the
empty string changes `status` and `updated_at` but leaves the previously
stored result unchanged. -/
theorem update_session_result_frame (db : List Row) (iid status : String) (now : Nat) :
    ((update_session db iid status none now).map Row.result = db.map Row.result
      ∧ (update_session db iid status (some "") now).map Row.result = db.map Row.result)
    ∧ (∀ s : String, s ≠ "" → ∀ r ∈ update_session db iid status (some s) now,
        r.interaction_id = iid → r.result = some s)
    ∧ (∀ res : Option String, ∀ r ∈ update_session db iid status res now,
        r.interaction_id = iid → r.status = status ∧ r.updated_at = now) := by
  refine ⟨⟨?_, ?_⟩, ?_, ?_⟩
  · rw [update_session, List.map_map]
    refine List.map_congr_left fun r _ => ?_
    by_cases h : r.interaction_id = iid <;> simp [h, truthyStr]
  · rw [update_session, List.map_map]
    refine List.map_congr_left fun r _ => ?_
    by_cases h : r.interaction_id = iid <;> simp [h, truthyStr]
  · intro s hs r hr hiid
    rw [update_session] at hr
    obtain ⟨r0, _, heq⟩ := List.mem_map.mp hr
    by_cases h : r0.interaction_id = iid
    · subst heq
      simp only [h, if_pos]
      simp [truthyStr, hs]
    · subst heq
      rw [if_neg h] at hiid
      exact absurd hiid h
  · intro res r hr hiid
    rw [update_session] at hr
    obtain ⟨r0, _, heq⟩ := List.mem_map.mp hr
    by_cases h : r0.interaction_id = iid
    · subst heq
      simp [h]
    · subst heq
      rw [if_neg h] at hiid
      exact absurd hiid h

/-- Witness for C10 on a concrete row: a `None` update leaves the old result
in place, a non-empty update overwrites it. -/
theorem update_session_result_frame_witness :
    (update_session [frameRow] "iid" "done" none 9).map Row.result = [frameRow].map Row.result
    ∧ frameRowUpd.result = some "new" :=
  ⟨(update_session_result_frame [frameRow] "iid" "done" 9).1.1,
    (update_session_result_frame [frameRow] "iid" "done" 9).2.1 "new" (by decide) frameRowUpd
      (by decide) (by decide)⟩

/-- Claim C2 (code bug): on the exact shape the repository's own regression
test `test_list_sessions_avoids_n_plus_one_queries` builds — one running
parent with a live pid and three running pid-less children — `list_sessions`
issues 4 `SELECT` queries (the candidate query plus one parent lookup per
child), where the claim and the test demand at most 2. -/
theorem list_sessions_query_count_on_test_shape :
    (list_sessions probeAllOk [qcParent, qcChild1, qcChild2, qcChild3] 10).selects = 4
    ∧ ((list_sessions probeAllOk [qcParent, qcChild1, qcChild2, qcChild3] 10).rows.map
        Row.status) = ["running", "running", "running", "running"] := by decide

/-- Counterexample to C1: with the root succeeding, one gap question, and the
child's remote operation failing, the failed child's error description is
returned as its report and lands in the parent's `sub_reports` list — the
failed child does not propagate as "no report". -/
theorem failed_child_contributes_error_report :
    (execRecursionLevel envChildFails "P" 1 2 3).collected = ["API Error: boom"]
    ∧ ((execRecursionLevel envChildFails "P" 1 2 3).children.map ExecTree.status) = ["failed"]
    ∧ ((execRecursionLevel envChildFails "P" 1 2 3).children.map ExecTree.result)
      = [some "API Error: boom"] := by decide

/-- Counterexample to C3: in the three-row chain whose grandchild is listed
first, one `list` call crashes the dead-pid root and its direct child but
leaves the running pid-less grandchild `running` — the propagation is not
transitive in a single call. -/
theorem transitive_crash_misses_grandchild :
    ((list_sessions probeAllDead [chainRoot, chainMid, chainLeaf] 10).rows.map
        fun r => (r.id, r.status))
      = [(3, "running"), (2, "crashed"), (1, "crashed")]
    ∧ chainLeaf.parent_id = some 2 ∧ chainMid.parent_id = some 1
    ∧ chainLeaf.pid = none ∧ chainMid.pid = none
    ∧ killRaisesOSError (probeAllDead 77) = true := by decide

/-- Counterexample to C4: with breadth 1 the gap analyzer's list
`["", "Q2"]` spawns two children — more child rows than the breadth — and the
empty-string question is not dropped. -/
theorem fanout_exceeds_breadth :
    ((execRecursionLevel envWideGaps "P" 1 2 1).children.map ExecTree.prompt) = ["", "Q2"]
    ∧ (execRecursionLevel envWideGaps "P" 1 2 1).children.length = 2
    ∧ 1 < 2 := by decide

/-- Counterexample to C5: a probe failing with `PermissionError` (a live
process owned by another user) is caught by the bare `except OSError:` and
the row is marked `crashed`. -/
theorem permission_error_marks_crashed :
    ((list_sessions probeAllPerm [ownPidRow] 10).rows.map Row.status) = ["crashed"]
    ∧ probeAllPerm 5 = .permissionDenied := by decide

/-- Counterexample to C7: when every child misses the shared timeout, the
parent returns its pre-fan-out report but its stored status stays `running`
— it never reaches a finalized `completed` state. -/
theorem no_child_report_status_stays_running :
    (execRecursionLevel envAllTimeout "P" 1 2 3).status = "running"
    ∧ (execRecursionLevel envAllTimeout "P" 1 2 3).result = some "R"
    ∧ (execRecursionLevel envAllTimeout "P" 1 2 3).collected = []
    ∧ (execRecursionLevel envAllTimeout "P" 1 2 3).children.length = 2 := by decide

/-- Counterexample to C8: a poll-executed node at `depth == maxDepth = 2`
whose remote operation reports an explicit failure finalizes as `failed`,
and the streamed root at `depth == maxDepth = 1` is left `running` with no
result — in neither case does the node finalize `completed`. -/
theorem max_depth_failure_not_completed :
    ((execRecursionLevel envPollFails "Q" 2 2 3).status = "failed"
      ∧ (execRecursionLevel envPollFails "Q" 2 2 3).status ≠ "completed"
      ∧ (execRecursionLevel envPollFails "Q" 2 2 3).gapCalled = false)
    ∧ ((execRecursionLevel envPollFails "P" 1 1 3).status = "running"
      ∧ (execRecursionLevel envPollFails "P" 1 1 3).status ≠ "completed"
      ∧ (execRecursionLevel envPollFails "P" 1 1 3).result = none
      ∧ (execRecursionLevel envPollFails "P" 1 1 3).gapCalled = false) := by decide

/-! ### Orchestrator lemmas -/

/-- Every branch of `execLevel` builds the node for the prompt it was given. -/
theorem execLevel_prompt (env : Env) (r : Nat) (q : String) (d b : Nat) :
    (execLevel env r q d b).prompt = q := by
  cases r <;>
    simp only [execLevel] <;>
    first
      | (split <;> rfl)
      | (split
         · rfl
         · split
           · rfl
           · split <;> rfl)

/-- `phase2` on a successful remote call: the stream and poll paths perform
the same write. -/
theorem phase2_success (env : Env) (prompt : String) (depth : Nat) (isLeaf : Bool)
    (t : String) (hpoll : env.poll prompt = .success t) :
    phase2 env prompt depth isLeaf
      = (if isLeaf then "completed" else "running", if t = "" then none else some t) := by
  simp [phase2, hpoll]

/-- Unfolding `execLevel` at a non-leaf node whose own remote call succeeded
with a non-empty report. -/
theorem execLevel_succ_success (env : Env) (r : Nat) (prompt : String) (d b : Nat)
    (t : String) (hpoll : env.poll prompt = .success t) (ht : t ≠ "") :
    execLevel env (r + 1) prompt d b =
      (if env.gaps prompt t b = [] then
        ExecTree.mk prompt d "completed" (storedResult t (some t)) (some t) true [] []
      else
        let children := (env.gaps prompt t b).map fun q => execLevel env r q (d + 1) b
        let subReports := collectSubReports env (env.gaps prompt t b) children
        if subReports = [] then
          ExecTree.mk prompt d "running" (some t) (some t) true subReports children
        else
          let finalReport := synthesize_findings env prompt t subReports
          ExecTree.mk prompt d "completed" (storedResult finalReport (some t))
            (some finalReport) true subReports children) := by
  simp only [execLevel, phase2_success env prompt d false t hpoll, if_neg ht,
    Bool.false_eq_true, if_false]

/-- Claim C8 (amended): a node executed at `depth == maxDepth` never calls
the Gap Analyzer and spawns zero children; it finalizes `completed` holding
its current result when the remote operation succeeds with a non-empty
report.  On an explicit provider failure it does not finalize `completed`:
a poll-executed node (`maxDepth ≥ 2`) finalizes `failed` with the error
description, while the streamed root (`maxDepth = 1`) is left `running`
with no stored result. -/
theorem max_depth_no_gap_no_children (env : Env) (prompt : String) (maxDepth breadth : Nat)
    (hmd : 1 ≤ maxDepth) :
    (execRecursionLevel env prompt maxDepth maxDepth breadth).gapCalled = false
    ∧ (execRecursionLevel env prompt maxDepth maxDepth breadth).children = []
    ∧ (∀ t, env.poll prompt = .success t → t ≠ "" →
        (execRecursionLevel env prompt maxDepth maxDepth breadth).status = "completed"
        ∧ (execRecursionLevel env prompt maxDepth maxDepth breadth).result = some t)
    ∧ (∀ e, env.poll prompt = .failure e → 2 ≤ maxDepth →
        (execRecursionLevel env prompt maxDepth maxDepth breadth).status = "failed"
        ∧ (execRecursionLevel env prompt maxDepth maxDepth breadth).result
            = some ("API Error: " ++ e))
    ∧ (∀ e, env.poll prompt = .failure e → maxDepth = 1 →
        (execRecursionLevel env prompt maxDepth maxDepth breadth).status = "running"
        ∧ (execRecursionLevel env prompt maxDepth maxDepth breadth).result = none) := by
  refine ⟨?_, ?_, ?_, ?_, ?_⟩
  · rw [execRecursionLevel, Nat.sub_self]
    simp only [execLevel]
    split <;> rfl
  · rw [execRecursionLevel, Nat.sub_self]
    simp only [execLevel]
    split <;> rfl
  · intro t hp ht
    rw [execRecursionLevel, Nat.sub_self]
    simp [execLevel, phase2, hp, ht, ExecTree.status, ExecTree.result]
  · intro e hp h2
    have hne : maxDepth ≠ 1 := by omega
    rw [execRecursionLevel, Nat.sub_self]
    simp [execLevel, phase2, hp, hne, ExecTree.status, ExecTree.result]
  · intro e hp h1
    subst h1
    rw [execRecursionLevel, Nat.sub_self]
    simp [execLevel, phase2, hp, ExecTree.status, ExecTree.result]

/-- Witness for the amended C8 at a concrete poll-executed node failing at
`depth == maxDepth = 2`. -/
theorem max_depth_no_gap_no_children_witness :
    (1 ≤ 2 ∧ envPollFails.poll "Q" = .failure "down" ∧ 2 ≤ 2)
    ∧ (execRecursionLevel envPollFails "Q" 2 2 3).gapCalled = false
    ∧ (execRecursionLevel envPollFails "Q" 2 2 3).status = "failed" :=
  ⟨⟨by decide, by decide, by decide⟩,
    (max_depth_no_gap_no_children envPollFails "Q" 2 3 (by decide)).1,
    ((max_depth_no_gap_no_children envPollFails "Q" 2 3 (by decide)).2.2.2.1 "down"
      (by decide) (by decide)).1⟩

/-- Claim C4 (amended): the caller does not truncate the gap analyzer's
question list to the breadth and does not drop empty-string questions; it
spawns exactly one child per returned question, in order, so a node can have
more child rows created than the configured breadth.  The breadth only sizes
the worker pool (and the limit mentioned in the analysis prompt). -/
theorem one_child_per_question_no_truncation (env : Env) (r : Nat) (prompt : String)
    (d b : Nat) (t : String) (hpoll : env.poll prompt = .success t) (ht : t ≠ "") :
    ((execLevel env (r + 1) prompt d b).children.map ExecTree.prompt)
      = env.gaps prompt t b := by
  rw [execLevel_succ_success env r prompt d b t hpoll ht]
  by_cases hq : env.gaps prompt t b = []
  · simp [hq, ExecTree.children]
  · simp only [if_neg hq]
    split
    · simp only [ExecTree.children, List.map_map]
      exact (List.map_congr_left fun q _ =>
        execLevel_prompt env r q (d + 1) b).trans (List.map_id _)
    · simp only [ExecTree.children, List.map_map]
      exact (List.map_congr_left fun q _ =>
        execLevel_prompt env r q (d + 1) b).trans (List.map_id _)

/-- Witness for the amended C4: the two-question run (breadth 1) spawns one
child per question, including the empty-string one. -/
theorem one_child_per_question_no_truncation_witness :
    (envWideGaps.poll "P" = .success "R" ∧ "R" ≠ "")
    ∧ ((execLevel envWideGaps 1 "P" 1 1).children.map ExecTree.prompt)
      = envWideGaps.gaps "P" "R" 1 :=
  ⟨⟨by decide, by decide⟩,
    one_child_per_question_no_truncation envWideGaps 0 "P" 1 1 "R" (by decide) (by decide)⟩

/-- A spawned child's truthy report is collected when its future finished
inside the shared timeout. -/
theorem mem_collectSubReports (env : Env) (f : String → ExecTree) (s : String)
    (hs : s ≠ "") :
    ∀ (qs : List String) (q : String), q ∈ qs → env.inTime q = true →
      (f q).report = some s → s ∈ collectSubReports env qs (qs.map f) := by
  intro qs
  induction qs with
  | nil => intro q hin; exact absurd hin (List.not_mem_nil q)
  | cons a qs ih =>
    intro q hin htime hrep
    rw [List.map_cons, collectSubReports]
    rcases List.mem_cons.mp hin with heq | hmem
    · subst heq
      rw [htime, hrep]
      simp [bne_iff_ne, hs]
    · exact List.mem_append_right _ (ih q hmem htime hrep)

/-- `"API Error: " ++ err` is never the empty string. -/
theorem api_error_ne_empty (err : String) : ("API Error: " ++ err) ≠ "" := by
  intro h
  have hdata := congrArg String.data h
  rw [String.data_append] at hdata
  have := List.append_eq_nil.mp hdata
  exact absurd this.1 (by decide)

/-- Claim C7 (amended): a non-leaf node whose fan-out level ends with no
child report keeps its stored result unchanged, returns it to its own
parent, and is not failed — but its stored status remains `running`, not a
finalized `completed`. -/
theorem no_child_report_keeps_result (env : Env) (r : Nat) (prompt : String) (d b : Nat)
    (t : String) (hpoll : env.poll prompt = .success t) (ht : t ≠ "")
    (hq : env.gaps prompt t b ≠ [])
    (hsub : collectSubReports env (env.gaps prompt t b)
        ((env.gaps prompt t b).map fun q => execLevel env r q (d + 1) b) = []) :
    (execLevel env (r + 1) prompt d b).status = "running"
    ∧ (execLevel env (r + 1) prompt d b).result = some t
    ∧ (execLevel env (r + 1) prompt d b).report = some t := by
  rw [execLevel_succ_success env r prompt d b t hpoll ht]
  simp only [if_neg hq]
  simp [hsub, ExecTree.status, ExecTree.result, ExecTree.report]

/-- Witness for the amended C7 at the all-children-time-out run. -/
theorem no_child_report_keeps_result_witness :
    (envAllTimeout.gaps "P" "R" 3 ≠ []
      ∧ collectSubReports envAllTimeout (envAllTimeout.gaps "P" "R" 3)
          ((envAllTimeout.gaps "P" "R" 3).map fun q => execLevel envAllTimeout 0 q 2 3) = [])
    ∧ (execLevel envAllTimeout 1 "P" 1 3).status = "running"
    ∧ (execLevel envAllTimeout 1 "P" 1 3).result = some "R" :=
  ⟨⟨by decide, by decide⟩,
    (no_child_report_keeps_result envAllTimeout 0 "P" 1 3 "R" (by decide) (by decide)
      (by decide) (by decide)).1,
    (no_child_report_keeps_result envAllTimeout 0 "P" 1 3 "R" (by decide) (by decide)
      (by decide) (by decide)).2.1⟩

/-- Claim C1 (amended): a leaf child (poll-executed, so at depth `d + 1 ≥ 2`
below its depth-`d ≥ 1` parent) whose remote operation reports an explicit
provider failure stores `status = failed` with `result` an error
description and raises no exception into the parent — but it does not
propagate as "no report": the non-empty error description passes the
result guard, is returned as the child's report, and is collected into the
parent's `sub_reports` when the child finishes inside the timeout. -/
theorem failed_child_error_propagation (env : Env) (q err : String) (d b : Nat)
    (hq : env.poll q = .failure err) (hd : 1 ≤ d) :
    ((execLevel env 0 q (d + 1) b).status = "failed"
      ∧ (execLevel env 0 q (d + 1) b).result = some ("API Error: " ++ err)
      ∧ (execLevel env 0 q (d + 1) b).report = some ("API Error: " ++ err))
    ∧ (∀ prompt t, env.poll prompt = .success t → t ≠ "" →
        q ∈ env.gaps prompt t b → env.inTime q = true →
        ("API Error: " ++ err) ∈ (execLevel env 1 prompt d b).collected) := by
  have hd1 : d + 1 ≠ 1 := by omega
  have hleaf :
      (execLevel env 0 q (d + 1) b).status = "failed"
      ∧ (execLevel env 0 q (d + 1) b).result = some ("API Error: " ++ err)
      ∧ (execLevel env 0 q (d + 1) b).report = some ("API Error: " ++ err) := by
    simp [execLevel, phase2, hq, hd1, ExecTree.status, ExecTree.result, ExecTree.report]
  refine ⟨hleaf, ?_⟩
  intro prompt t hp ht hin htime
  show ("API Error: " ++ err) ∈ (execLevel env (0 + 1) prompt d b).collected
  rw [execLevel_succ_success env 0 prompt d b t hp ht]
  have hqs : env.gaps prompt t b ≠ [] := by
    intro h0
    rw [h0] at hin
    exact absurd hin (List.not_mem_nil q)
  simp only [if_neg hqs]
  split <;>
    exact mem_collectSubReports env _ _ (api_error_ne_empty err) _ q hin htime hleaf.2.2

/-- Witness for the amended C1 at the concrete failing-child run (depth-1
parent, depth-2 child). -/
theorem failed_child_error_propagation_witness :
    (envChildFails.poll "Q1" = .failure "boom" ∧ "Q1" ∈ envChildFails.gaps "P" "R" 3
      ∧ 1 ≤ 1)
    ∧ (execLevel envChildFails 0 "Q1" 2 3).status = "failed"
    ∧ ("API Error: " ++ "boom") ∈ (execLevel envChildFails 1 "P" 1 3).collected :=
  ⟨⟨by decide, by decide, by decide⟩,
    (failed_child_error_propagation envChildFails "Q1" "boom" 1 3 (by decide)
      (by decide)).1.1,
    (failed_child_error_propagation envChildFails "Q1" "boom" 1 3 (by decide)
      (by decide)).2 "P" "R" (by decide) (by decide) (by decide) (by decide)⟩

/-! ### Verbatim-containment lemmas for the synthesis fallback -/

theorem containsStr_tail (p c : String) : containsStr (p ++ c) c :=
  ⟨p.data, [], by simp [String.data_append]⟩

theorem containsStr_head (c u : String) : containsStr (c ++ u) c :=
  ⟨[], u.data, by simp [String.data_append]⟩

theorem containsStr_appendL (s u c : String) (h : containsStr u c) :
    containsStr (s ++ u) c := by
  obtain ⟨a, b2, hab⟩ := h
  exact ⟨s.data ++ a, b2, by simp [String.data_append, hab]⟩

theorem containsStr_appendR (u s c : String) (h : containsStr u c) :
    containsStr (u ++ s) c := by
  obtain ⟨a, b2, hab⟩ := h
  exact ⟨a, b2 ++ s.data, by simp [String.data_append, hab]⟩

/-- Every sub-report occurs verbatim in the labeled joined dump, whatever the
label counter starts at. -/
theorem containsStr_joinSep_of_mem (sep : String) :
    ∀ (subs : List String) (i : Nat) (c : String), c ∈ subs →
      containsStr (joinSep sep (labeledSubReports i subs)) c := by
  intro subs
  induction subs with
  | nil => intro i c h; exact absurd h (List.not_mem_nil c)
  | cons x xs ih =>
    intro i c hmem
    rcases List.mem_cons.mp hmem with rfl | hmem2
    · cases xs with
      | nil =>
        simp only [labeledSubReports, joinSep]
        exact containsStr_tail _ c
      | cons y ys =>
        simp only [labeledSubReports, joinSep]
        exact containsStr_appendR _ _ c
          (containsStr_appendR _ _ c (containsStr_tail _ c))
    · cases xs with
      | nil => exact absurd hmem2 (List.not_mem_nil c)
      | cons y ys =>
        simp only [labeledSubReports, joinSep]
        exact containsStr_appendL _ _ c (ih (i + 1) c hmem2)

/-- The synthesis fallback string is never empty (the error banner alone is
non-empty). -/
theorem synthFallback_ne_empty (mainReport : String) (subs : List String) :
    synthFallback mainReport subs ≠ "" := by
  intro h
  have hdata := congrArg String.data h
  rw [synthFallback, String.data_append, String.data_append] at hdata
  have h1 := List.append_eq_nil.mp hdata
  have h2 := List.append_eq_nil.mp h1.1
  exact absurd h2.2 (by decide)

/-- The `sub_reports` list a non-leaf level collects from its children. -/
def subsOf (env : Env) (r : Nat) (prompt : String) (d b : Nat) (t : String) : List String :=
  collectSubReports env (env.gaps prompt t b)
    ((env.gaps prompt t b).map fun q => execLevel env r q (d + 1) b)

/-- Claim C6: when the synthesis remote call errors, the node finalizes
`completed` (never `failed`) with the fallback text as its stored result,
and that fallback contains the parent report and every collected child
report verbatim. -/
theorem synthesis_failure_preserves_reports (env : Env) (r : Nat) (prompt : String)
    (d b : Nat) (t : String) (hpoll : env.poll prompt = .success t) (ht : t ≠ "")
    (hq : env.gaps prompt t b ≠ []) (hsub : subsOf env r prompt d b t ≠ [])
    (hfail : env.synth prompt t (subsOf env r prompt d b t) = none) :
    (execLevel env (r + 1) prompt d b).status = "completed"
    ∧ (execLevel env (r + 1) prompt d b).result
        = some (synthFallback t (subsOf env r prompt d b t))
    ∧ containsStr (synthFallback t (subsOf env r prompt d b t)) t
    ∧ ∀ c ∈ subsOf env r prompt d b t,
        containsStr (synthFallback t (subsOf env r prompt d b t)) c := by
  rw [subsOf] at hsub hfail ⊢
  rw [execLevel_succ_success env r prompt d b t hpoll ht]
  simp only [if_neg hq, if_neg hsub]
  refine ⟨rfl, ?_, ?_, ?_⟩
  · simp only [ExecTree.result, synthesize_findings, hfail, storedResult,
      bne_iff_ne, ne_eq]
    rw [if_pos (synthFallback_ne_empty _ _)]
  · rw [synthFallback]
    exact containsStr_appendR _ _ t (containsStr_head t _)
  · intro c hc
    rw [synthFallback, combinedSubs]
    exact containsStr_appendL _ _ c (containsStr_joinSep_of_mem _ _ 0 c hc)

/-- Witness for C6 at the concrete run whose synthesis call errors. -/
theorem synthesis_failure_preserves_reports_witness :
    (envSynthFails.synth "P" "R" (subsOf envSynthFails 0 "P" 1 3 "R") = none
      ∧ subsOf envSynthFails 0 "P" 1 3 "R" = ["C1", "C2"])
    ∧ (execLevel envSynthFails 1 "P" 1 3).status = "completed"
    ∧ containsStr (synthFallback "R" (subsOf envSynthFails 0 "P" 1 3 "R")) "C1" :=
  ⟨⟨rfl, by decide⟩,
    (synthesis_failure_preserves_reports envSynthFails 0 "P" 1 3 "R" (by decide) (by decide)
      (by decide) (by decide) rfl).1,
    (synthesis_failure_preserves_reports envSynthFails 0 "P" 1 3 "R" (by decide) (by decide)
      (by decide) (by decide) rfl).2.2.2 "C1" (by decide)⟩

/-! ### Stream counting lemmas -/

theorem procEvent_adoptCalls (a : Option Nat) (rp : Option String) (st : StreamSt)
    (e : SEvent) :
    (procEvent a rp st e).adoptCalls
      = st.adoptCalls
        + (if e.eventType = "interaction.start" ∧ truthyNat a then 1 else 0) := by
  by_cases h1 : e.eventType = "interaction.start" <;>
    by_cases h2 : truthyStr e.eventId <;>
    by_cases h3 : e.eventType = "interaction.complete" ∨ e.eventType = "error" <;>
    simp [procEvent, h1, h2, h3]

theorem procEvent_createCalls (a : Option Nat) (rp : Option String) (st : StreamSt)
    (e : SEvent) :
    (procEvent a rp st e).createCalls
      = st.createCalls
        + (if e.eventType = "interaction.start" ∧ ¬truthyNat a ∧ truthyStr rp
            then 1 else 0) := by
  by_cases h1 : e.eventType = "interaction.start" <;>
    by_cases h2 : truthyStr e.eventId <;>
    by_cases h3 : e.eventType = "interaction.complete" ∨ e.eventType = "error" <;>
    by_cases h4 : ¬truthyNat a ∧ truthyStr rp <;>
    simp [procEvent, h1, h2, h3, h4]

theorem process_stream_adoptCalls (a : Option Nat) (rp : Option String)
    (events : List SEvent) : ∀ st : StreamSt,
    (process_stream a rp st events).adoptCalls
      = st.adoptCalls + (if truthyNat a then countStarts events else 0) := by
  induction events with
  | nil => intro st; simp [process_stream, countStarts]
  | cons e evs ih =>
    intro st
    rw [process_stream, List.foldl_cons, ← process_stream, ih, procEvent_adoptCalls]
    by_cases ha : truthyNat a <;>
      by_cases hs : e.eventType = "interaction.start" <;>
      simp [ha, hs, countStarts, List.countP_cons] <;> omega

theorem process_stream_createCalls (a : Option Nat) (rp : Option String)
    (events : List SEvent) : ∀ st : StreamSt,
    (process_stream a rp st events).createCalls
      = st.createCalls
        + (if ¬truthyNat a ∧ truthyStr rp then countStarts events else 0) := by
  induction events with
  | nil => intro st; simp [process_stream, countStarts]
  | cons e evs ih =>
    intro st
    rw [process_stream, List.foldl_cons, ← process_stream, ih, procEvent_createCalls]
    by_cases ha : truthyNat a <;>
      by_cases hrp : truthyStr rp <;>
      by_cases hs : e.eventType = "interaction.start" <;>
      simp [ha, hrp, hs, countStarts, List.countP_cons] <;> omega

/-- Resumed segments are processed with `request_prompt = None`, so they
never create a row, and segments with no `interaction.start` event never
adopt. -/
theorem resume_fold_counts (a : Option Nat) (resumes : List (List SEvent))
    (h2 : ∀ seg ∈ resumes, countStarts seg = 0) : ∀ st : StreamSt,
    ((resumes.foldl
        (fun st seg =>
          if ¬st.isComplete ∧ truthyStr st.interactionId then process_stream a none st seg
          else st) st).adoptCalls = st.adoptCalls
      ∧ (resumes.foldl
        (fun st seg =>
          if ¬st.isComplete ∧ truthyStr st.interactionId then process_stream a none st seg
          else st) st).createCalls = st.createCalls) := by
  induction resumes with
  | nil => intro st; exact ⟨rfl, rfl⟩
  | cons seg rest ih =>
    intro st
    rw [List.foldl_cons]
    have hseg : countStarts seg = 0 := h2 seg (List.mem_cons_self seg rest)
    have hrest : ∀ s ∈ rest, countStarts s = 0 := fun s hs => h2 s (List.mem_cons_of_mem seg hs)
    have hstep :
        (if ¬st.isComplete ∧ truthyStr st.interactionId then process_stream a none st seg
          else st).adoptCalls = st.adoptCalls
        ∧ (if ¬st.isComplete ∧ truthyStr st.interactionId then process_stream a none st seg
          else st).createCalls = st.createCalls := by
      split
      · rw [process_stream_adoptCalls, process_stream_createCalls, hseg]
        constructor
        · split <;> omega
        · simp [truthyStr]
      · exact ⟨rfl, rfl⟩
    obtain ⟨ihA, ihC⟩ := ih hrest _
    exact ⟨ihA.trans hstep.1, ihC.trans hstep.2⟩

/-- Claim C9: across the initial stream and all resumptions of one
operation (whose replayed segments do not repeat the already-observed
`interaction.start` event), the row-creation and adoption writes happen
exactly once in total: with a placeholder id the adoption update runs once
and no new row is created; without one exactly one row is created. -/
theorem adoption_exactly_once (adopt : Option Nat) (prompt : String)
    (initial : List SEvent) (resumes : List (List SEvent))
    (h1 : countStarts initial = 1)
    (h2 : ∀ seg ∈ resumes, countStarts seg = 0) :
    (truthyNat adopt = true →
      (runResearchStream adopt prompt initial resumes).adoptCalls = 1
      ∧ (runResearchStream adopt prompt initial resumes).createCalls = 0)
    ∧ (adopt = none → prompt ≠ "" →
      (runResearchStream adopt prompt initial resumes).createCalls = 1
      ∧ (runResearchStream adopt prompt initial resumes).adoptCalls = 0) := by
  have hfold := resume_fold_counts adopt resumes h2
    (process_stream adopt (some prompt) initialStreamSt initial)
  have hA := process_stream_adoptCalls adopt (some prompt) initial initialStreamSt
  have hC := process_stream_createCalls adopt (some prompt) initial initialStreamSt
  rw [runResearchStream]
  constructor
  · intro ha
    rw [hfold.1, hfold.2, hA, hC, h1]
    simp [ha, initialStreamSt]
  · intro hnone hp
    subst hnone
    rw [hfold.1, hfold.2, hA, hC, h1]
    simp [truthyNat, truthyStr, hp, initialStreamSt]

/-- Witness for C9: a stream that drops after one fragment and resumes to
completion, once adopting a placeholder (id 7) and once creating the row. -/
theorem adoption_exactly_once_witness :
    (countStarts [evStart, evDelta] = 1 ∧ countStarts [evDelta, evDone] = 0)
    ∧ ((runResearchStream (some 7) "P" [evStart, evDelta] [[evDelta, evDone]]).adoptCalls = 1
      ∧ (runResearchStream (some 7) "P" [evStart, evDelta] [[evDelta, evDone]]).createCalls = 0)
    ∧ ((runResearchStream none "P" [evStart, evDelta] [[evDelta, evDone]]).createCalls = 1
      ∧ (runResearchStream none "P" [evStart, evDelta] [[evDelta, evDone]]).adoptCalls = 0) :=
  ⟨⟨by decide, by decide⟩,
    (adoption_exactly_once (some 7) "P" [evStart, evDelta] [[evDelta, evDone]] (by decide)
      (by decide)).1 (by decide),
    (adoption_exactly_once none "P" [evStart, evDelta] [[evDelta, evDone]] (by decide)
      (by decide)).2 rfl (by decide)⟩

/-! ### Liveness reconciliation lemmas -/

/-- Claim C5 (amended): the probe's dead verdict is the bare
`except OSError:`, so a row is marked `crashed` exactly when the probe on
its own pid raises any `OSError` — including a `PermissionError` for a live
process owned by another user — and kept `running` only when the probe
succeeds. -/
theorem own_pid_probe_outcome (probe : Nat → ProbeResult) (r : Row)
    (hrun : r.status = "running") (hpid : truthyNat r.pid = true) :
    (list_sessions probe [r] 1).rows.map Row.status
      = [if killRaisesOSError (probe (r.pid.getD 0)) then "crashed" else "running"] := by
  rw [list_sessions]
  simp only [sortByUpdatedDesc, List.foldr_cons, List.foldr_nil, insertByUpdatedDesc,
    List.take_succ_cons, List.take_nil]
  rw [reconcile]
  simp only [hrun, if_pos, rowIsDead, hpid, if_true]
  cases hk : killRaisesOSError (probe (r.pid.getD 0)) <;>
    simp [hk, reconcile, hrun]

/-- Witness for the amended C5: a permission-failing probe crashes the row. -/
theorem own_pid_probe_outcome_witness :
    (ownPidRow.status = "running" ∧ truthyNat ownPidRow.pid = true)
    ∧ (list_sessions probeAllPerm [ownPidRow] 1).rows.map Row.status
        = [if killRaisesOSError (probeAllPerm (ownPidRow.pid.getD 0)) then "crashed"
            else "running"] :=
  ⟨⟨by decide, by decide⟩, own_pid_probe_outcome probeAllPerm ownPidRow (by decide) (by decide)⟩

theorem insertByUpdatedDesc_perm (r : Row) (l : List Row) :
    (insertByUpdatedDesc r l).Perm (r :: l) := by
  induction l with
  | nil => exact List.Perm.refl _
  | cons x xs ih =>
    rw [insertByUpdatedDesc]
    split
    · exact (ih.cons x).trans (List.Perm.swap r x xs)
    · exact List.Perm.refl _

theorem sortByUpdatedDesc_perm (db : List Row) : (sortByUpdatedDesc db).Perm db := by
  induction db with
  | nil => exact List.Perm.refl _
  | cons x xs ih =>
    rw [sortByUpdatedDesc, List.foldr_cons, ← sortByUpdatedDesc]
    exact (insertByUpdatedDesc_perm x _).trans (ih.cons x)

theorem mem_db_of_mem_candidates (db : List Row) (limit : Nat) (x : Row)
    (hx : x ∈ (sortByUpdatedDesc db).take limit) : x ∈ db :=
  (sortByUpdatedDesc_perm db).mem_iff.mp (List.take_subset limit (sortByUpdatedDesc db) hx)

/-- Two rows of an id-unique table with the same id are the same row. -/
theorem eq_of_id_eq_of_nodup (db : List Row) (h : (db.map Row.id).Nodup) :
    ∀ a ∈ db, ∀ b ∈ db, a.id = b.id → a = b := by
  induction db with
  | nil => intro a ha; exact absurd ha (List.not_mem_nil a)
  | cons x xs ih =>
    rw [List.map_cons, List.nodup_cons] at h
    intro a ha b hb hid
    rcases List.mem_cons.mp ha with rfl | ha2 <;> rcases List.mem_cons.mp hb with rfl | hb2
    · rfl
    · exact absurd (hid ▸ List.mem_map_of_mem Row.id hb2) h.1
    · exact absurd (hid ▸ List.mem_map_of_mem Row.id ha2) h.1
    · exact ih h.2 a ha2 b hb2 hid

/-- In an id-unique table, the `WHERE id = ?` lookup finds exactly the row. -/
theorem find?_id_of_nodup (db : List Row) (h : (db.map Row.id).Nodup) (p : Row)
    (hp : p ∈ db) : db.find? (fun r => r.id = p.id) = some p := by
  induction db with
  | nil => exact absurd hp (List.not_mem_nil p)
  | cons x xs ih =>
    rw [List.map_cons, List.nodup_cons] at h
    by_cases hx : x.id = p.id
    · have hxp : x = p := by
        rcases List.mem_cons.mp hp with rfl | hp2
        · rfl
        · exact absurd (hx ▸ List.mem_map_of_mem Row.id hp2) h.1
      subst hxp
      exact List.find?_cons_of_pos _ (by simp)
    · have hp2 : p ∈ xs := by
        rcases List.mem_cons.mp hp with rfl | hp2
        · exact absurd rfl hx
        · exact hp2
      rw [List.find?_cons_of_neg _ (by simp [hx])]
      exact ih h.2 hp2

/-- The in-loop `UPDATE ... SET status = 'crashed'` writes only ever turn a
stored row into its crashed copy; `crashedRefines db0 db` says `db` is `db0`
with some rows so updated. -/
def crashedRefines (db0 db : List Row) : Prop :=
  List.Forall₂ (fun a b => b = a ∨ b = { a with status := "crashed" }) db0 db

theorem crashedRefines_refl (db : List Row) : crashedRefines db db :=
  List.forall₂_same.mpr fun _ _ => Or.inl rfl

theorem crashedRefines_update (db0 db : List Row) (h : crashedRefines db0 db) (i : Nat) :
    crashedRefines db0
      (db.map fun r => if r.id = i then { r with status := "crashed" } else r) := by
  induction h with
  | nil => exact List.Forall₂.nil
  | @cons a b l0 l hab htail ih =>
    rw [List.map_cons]
    refine List.Forall₂.cons ?_ ih
    rcases hab with rfl | rfl
    · split
      · exact Or.inr rfl
      · exact Or.inl rfl
    · split
      · exact Or.inr rfl
      · exact Or.inr rfl

/-- A parent row found by id in the evolved table is the original parent row
or its crashed copy. -/
theorem find?_of_crashedRefines (db0 db : List Row) (h : crashedRefines db0 db) (n : Nat) :
    ∀ p : Row, db0.find? (fun r => r.id = n) = some p →
      ∃ pr : Row, db.find? (fun r => r.id = n) = some pr
        ∧ (pr = p ∨ pr = { p with status := "crashed" }) := by
  induction h with
  | nil => intro p hp; simp [List.find?] at hp
  | @cons a b l0 l hab htail ih =>
    intro p hp
    have hid : b.id = a.id := by rcases hab with rfl | rfl <;> rfl
    by_cases hn : a.id = n
    · rw [List.find?_cons_of_pos _ (by simp [hn])] at hp
      injection hp with hp
      subst hp
      exact ⟨b, List.find?_cons_of_pos _ (by simp [hid, hn]), hab⟩
    · rw [List.find?_cons_of_neg _ (by simp [hn])] at hp
      obtain ⟨pr, hfind, hpr⟩ := ih p hp
      exact ⟨pr, by rw [List.find?_cons_of_neg _ (by simp [hid, hn])]; exact hfind, hpr⟩

/-- The dead conditions of the amended C3: the row's own pid probes dead, or
the row is pid-less and its direct parent row (present in the table) has a
pid that probes dead. -/
def deadCondition (probe : Nat → ProbeResult) (db0 : List Row) (c : Row) : Prop :=
  (truthyNat c.pid = true ∧ killRaisesOSError (probe (c.pid.getD 0)) = true)
  ∨ (truthyNat c.pid = false ∧ ∃ parent : Row, parent ∈ db0
      ∧ c.parent_id = some parent.id ∧ parent.id ≠ 0
      ∧ truthyNat parent.pid = true
      ∧ killRaisesOSError (probe (parent.pid.getD 0)) = true)

/-- Under `deadCondition`, the per-row check computes `is_dead = True`
however far the in-loop crash writes have progressed. -/
theorem rowIsDead_true_of (probe : Nat → ProbeResult) (db0 db : List Row)
    (hids : (db0.map Row.id).Nodup) (href : crashedRefines db0 db) (c : Row)
    (hdead : deadCondition probe db0 c) : (rowIsDead probe db c).1 = true := by
  rcases hdead with ⟨hp, hk⟩ | ⟨hp, parent, hparent, hcp, hpz, hppid, hpk⟩
  · simp [rowIsDead, hp, hk]
  · have hfind0 : db0.find? (fun r => r.id = parent.id) = some parent :=
      find?_id_of_nodup db0 hids parent hparent
    obtain ⟨pr, hfind, hpr⟩ := find?_of_crashedRefines db0 db href parent.id parent hfind0
    have hgd : c.parent_id.getD 0 = parent.id := by rw [hcp]; rfl
    have htp : truthyNat c.parent_id = true := by
      rw [hcp]
      simp [truthyNat, hpz]
    rw [rowIsDead, if_neg (by simp [hp]), if_pos htp, hgd, hfind]
    show parentIsDead probe pr = true
    rcases hpr with rfl | rfl
    · rw [parentIsDead]
      by_cases hterm : pr.status ∈ terminalStatuses
      · rw [if_pos hterm]
      · rw [if_neg hterm, if_pos hppid]
        exact hpk
    · simp [parentIsDead, terminalStatuses]

/-- The reconciliation loop returns one dictionary per candidate row, with
the candidate's id. -/
theorem reconcile_rows_ids (probe : Nat → ProbeResult) :
    ∀ (cands db : List Row),
      (reconcile probe cands db).rows.map Row.id = cands.map Row.id := by
  intro cands
  induction cands with
  | nil => intro db; rfl
  | cons s rest ih =>
    intro db
    simp only [reconcile]
    by_cases hs : s.status = "running"
    · rw [if_pos hs]
      by_cases hd : (rowIsDead probe db s).1
      · rw [if_pos hd]
        simp [ih]
      · rw [if_neg hd]
        simp [ih]
    · rw [if_neg hs]
      simp [ih]

/-- Main induction for the amended C3: every returned dictionary carrying the
id of a row satisfying `deadCondition` has been marked `crashed`. -/
theorem reconcile_marks_dead (probe : Nat → ProbeResult) (db0 : List Row)
    (hids : (db0.map Row.id).Nodup) (c : Row) (hcmem : c ∈ db0)
    (hrun : c.status = "running") (hdead : deadCondition probe db0 c) :
    ∀ (cands db : List Row), crashedRefines db0 db → (∀ x ∈ cands, x ∈ db0) →
      ∀ r ∈ (reconcile probe cands db).rows, r.id = c.id → r.status = "crashed" := by
  intro cands
  induction cands with
  | nil => intro db _ _ r hr; simp [reconcile] at hr
  | cons s rest ih =>
    intro db href hsub r hr hid
    have hsubrest : ∀ x ∈ rest, x ∈ db0 := fun x hx => hsub x (List.mem_cons_of_mem s hx)
    have hsmem : s ∈ db0 := hsub s (List.mem_cons_self s rest)
    rw [reconcile] at hr
    by_cases hs : s.status = "running"
    · rw [if_pos hs] at hr
      by_cases hd : (rowIsDead probe db s).1
      · rw [if_pos hd] at hr
        rcases List.mem_cons.mp hr with rfl | hr2
        · rfl
        · exact ih (db.map fun r => if r.id = s.id then { r with status := "crashed" } else r)
            (crashedRefines_update db0 db href s.id) hsubrest r hr2 hid
      · rw [if_neg hd] at hr
        rcases List.mem_cons.mp hr with rfl | hr2
        · have hsc : r = c := eq_of_id_eq_of_nodup db0 hids r hsmem c hcmem hid
          have htrue := rowIsDead_true_of probe db0 db hids href c hdead
          rw [← hsc] at htrue
          exact absurd htrue (by simpa using hd)
        · exact ih db href hsubrest r hr2 hid
    · rw [if_neg hs] at hr
      rcases List.mem_cons.mp hr with rfl | hr2
      · have hsc : r = c := eq_of_id_eq_of_nodup db0 hids r hsmem c hcmem hid
        rw [hsc] at hs
        exact absurd hrun hs
      · exact ih db href hsubrest r hr2 hid

/-- Claim C3 (amended): one `list` call marks `crashed` every running
candidate row whose own pid probes dead, and every running pid-less
candidate row whose direct parent row has a dead pid — but the propagation
is only via the direct parent: deeper pid-less descendants are not
guaranteed to be marked in the same call (see the grandchild
counterexample). -/
theorem list_marks_dead_owner_and_direct_children (probe : Nat → ProbeResult)
    (db : List Row) (limit : Nat) (hids : (db.map Row.id).Nodup)
    (c : Row) (hc : c ∈ (sortByUpdatedDesc db).take limit)
    (hrun : c.status = "running") (hdead : deadCondition probe db c) :
    (∃ r ∈ (list_sessions probe db limit).rows, r.id = c.id ∧ r.status = "crashed")
    ∧ ∀ r ∈ (list_sessions probe db limit).rows, r.id = c.id → r.status = "crashed" := by
  have hcmem : c ∈ db := mem_db_of_mem_candidates db limit c hc
  have hall : ∀ r ∈ (list_sessions probe db limit).rows, r.id = c.id →
      r.status = "crashed" := by
    intro r hr hid
    exact reconcile_marks_dead probe db hids c hcmem hrun hdead
      ((sortByUpdatedDesc db).take limit) db (crashedRefines_refl db)
      (fun x hx => mem_db_of_mem_candidates db limit x hx) r hr hid
  refine ⟨?_, hall⟩
  have hidmem : c.id ∈ ((list_sessions probe db limit).rows.map Row.id) := by
    show c.id ∈ ((reconcile probe ((sortByUpdatedDesc db).take limit) db).rows.map Row.id)
    rw [reconcile_rows_ids probe]
    exact List.mem_map_of_mem Row.id hc
  obtain ⟨r, hr, hrid⟩ := List.mem_map.mp hidmem
  exact ⟨r, hr, hrid, hall r hr hrid⟩

/-- Witness for the amended C3: the pid-less direct child of the dead-pid
root is crashed by one `list` call. -/
theorem list_marks_dead_owner_and_direct_children_witness :
    (chainMid.status = "running" ∧ chainMid.pid = none
      ∧ chainMid.parent_id = some chainRoot.id
      ∧ killRaisesOSError (probeAllDead 77) = true)
    ∧ ∃ r ∈ (list_sessions probeAllDead [chainRoot, chainMid, chainLeaf] 10).rows,
        r.id = chainMid.id ∧ r.status = "crashed" :=
  ⟨⟨by decide, by decide, by decide, by decide⟩,
    (list_marks_dead_owner_and_direct_children probeAllDead
      [chainRoot, chainMid, chainLeaf] 10 (by decide) chainMid (by decide) (by decide)
      (Or.inr ⟨by decide, chainRoot, by decide, by decide, by decide, by decide,
        by decide⟩)).1⟩

end DeepResearch

